import Mathlib

/-!
Shallow embedding of the batch/item processing engine of the
`reliable_imports` framework (`src/reliable_imports/`), together with
theorems checking the specification's claims against it.

Modelling conventions:
* UUIDs are modelled as `Nat` drawn from a fresh-id counter (`uuid4` always
  returns a value not present in the store).
* Timestamps (`datetime.utcnow()` / SQL `NOW()`) are modelled as an abstract
  tick `now : Nat` supplied to each top-level call; only set/unset matters
  for the claims.
* JSON payloads are opaque (`Json` wraps a string); `Json.empty` stands for
  the Python literal `{}` used in `source_info or {}` / `metadata or {}`.
* The durable store is a pair of tables (batches, items).  psycopg2
  transaction behaviour is modelled by a `Txn` carrying the committed store
  and the current (uncommitted) view: writes hit `current`, `commit` copies
  `current` into `committed`, `rollback` restores `current` from
  `committed`.  The repository's `schema.sql` is not part of the sources;
  per the spec's durable-store contract (§6) the store performs plain
  record updates and no triggers, and `created_at` defaults to the
  insertion time.
* Processor hooks (`BaseProcessor` in `processor.py`) are modelled as pure
  functions returning their result or the raised exception's message; per
  the spec's ownership rule (§3) contract code never writes batch/item
  status, and its ad-hoc database writes target tables outside the two
  modelled ones, so they do not appear in the modelled state.
* The append-only `import_logs` table is not modelled; no claim refers to
  log rows.
-/

/-- Enumeration `BatchStatus` from `models.py`. -/
inductive BatchStatus
  | pending
  | processing
  | completed
  | failed
  | reprocessing
deriving DecidableEq, Repr

/-- Enumeration `ItemStatus` from `models.py`. -/
inductive ItemStatus
  | pending
  | processing
  | completed
  | failed
  | skipped
deriving DecidableEq, Repr

/-- Opaque JSON payload. -/
structure Json where
  raw : String
deriving DecidableEq, Repr

/-- The Python literal `x7b x7d` (empty dict) used by `source_info or ...`. -/
def Json.empty : Json := ⟨""⟩

/-- A row of the `import_batches` table (fields as in `ImportBatch`). -/
structure BatchRec where
  id : Nat
  batch_type : String
  status : BatchStatus
  source_info : Option Json
  metadata : Option Json
  started_at : Option Nat
  completed_at : Option Nat
  created_at : Nat
  updated_at : Nat
  error_message : Option String
  retry_count : Nat
  parent_batch_id : Option Nat
deriving DecidableEq, Repr

/-- A row of the `import_batch_items` table (fields as in `ImportBatchItem`). -/
structure ItemRec where
  id : Nat
  batch_id : Nat
  item_index : Nat
  status : ItemStatus
  source_data : Json
  processed_data : Option Json
  target_table : Option String
  target_id : Option Nat
  error_message : Option String
  processed_at : Option Nat
  created_at : Nat
deriving DecidableEq, Repr

/-- Predicate `ImportBatchItem.is_complete` from `models.py`: status in
(COMPLETED, FAILED, SKIPPED). -/
def ItemRec.is_complete (it : ItemRec) : Bool :=
  match it.status with
  | .completed => true
  | .failed => true
  | .skipped => true
  | _ => false

/-- Predicate `ImportBatch.is_complete` from `models.py`: status in (COMPLETED, FAILED). -/
def BatchRec.is_complete (b : BatchRec) : Bool :=
  match b.status with
  | .completed => true
  | .failed => true
  | _ => false

/-- The durable store: the two tables the engine owns. -/
structure Store where
  batches : List BatchRec
  items : List ItemRec
deriving DecidableEq, Repr

/-- A connection-held transaction: committed state plus the current
uncommitted view (reads on the same connection see `current`). -/
structure Txn where
  committed : Store
  current : Store
deriving DecidableEq, Repr

/-- Apply a write to the current (uncommitted) view. -/
def Txn.write (t : Txn) (f : Store → Store) : Txn :=
  { t with current := f t.current }

/-- Commit, as in `conn.commit()`. -/
def Txn.commit (t : Txn) : Txn :=
  ⟨t.current, t.current⟩

/-- Rollback, as in `conn.rollback()`. -/
def Txn.rollback (t : Txn) : Txn :=
  ⟨t.committed, t.committed⟩

/-- Statement `UPDATE import_batches ... WHERE id = batch_id` applying `g` to the
matching rows. -/
def map_batch (s : Store) (batch_id : Nat) (g : BatchRec → BatchRec) : Store :=
  { s with batches := s.batches.map fun b => if b.id == batch_id then g b else b }

/-- Statement `UPDATE import_batch_items ... WHERE id = item_id` applying `g` to the
matching rows. -/
def map_item (s : Store) (item_id : Nat) (g : ItemRec → ItemRec) : Store :=
  { s with items := s.items.map fun it => if it.id == item_id then g it else it }

/-- Method `BatchManager._update_batch_status`: sets status and overwrites
`error_message` and `completed_at` with the passed values (the Python
parameters default to `None`); stamps `updated_at = NOW()`. -/
def update_batch_status (s : Store) (batch_id : Nat) (status : BatchStatus)
    (error_message : Option String) (completed_at : Option Nat) (now : Nat) : Store :=
  map_batch s batch_id fun b =>
    { b with
        status := status
        error_message := error_message
        completed_at := completed_at
        updated_at := now }

/-- Method `BatchManager._update_item_status`: sets only the status column. -/
def update_item_status (s : Store) (item_id : Nat) (status : ItemStatus) : Store :=
  map_item s item_id fun it => { it with status := status }

/-- The outcome dict returned by `process_item` (keys read by
`BatchManager._complete_item`). -/
structure ProcessResult where
  processed_data : Option Json
  target_table : Option String
  target_id : Option Nat
deriving DecidableEq, Repr

/-- Method `BatchManager._complete_item`: status COMPLETED plus the outcome
columns, `processed_at = NOW()`. -/
def complete_item (s : Store) (item_id : Nat) (result : ProcessResult) (now : Nat) : Store :=
  map_item s item_id fun it =>
    { it with
        status := .completed
        processed_data := result.processed_data
        target_table := result.target_table
        target_id := result.target_id
        processed_at := some now }

/-- Method `BatchManager._fail_item`: status FAILED plus the error message. -/
def fail_item (s : Store) (item_id : Nat) (error_message : String) : Store :=
  map_item s item_id fun it =>
    { it with status := .failed, error_message := some error_message }

/-- Method `BatchManager._load_batch`: `SELECT * FROM import_batches WHERE id = ...`. -/
def load_batch (s : Store) (batch_id : Nat) : Option BatchRec :=
  s.batches.find? fun b => b.id == batch_id

/-- Stable insertion used to model `ORDER BY item_index`. -/
def insert_by_index (x : ItemRec) : List ItemRec → List ItemRec
  | [] => [x]
  | y :: ys =>
    if x.item_index ≤ y.item_index then x :: y :: ys else y :: insert_by_index x ys

/-- Sort a list of item rows by `item_index` (ascending). -/
def sort_by_index (l : List ItemRec) : List ItemRec :=
  l.foldr insert_by_index []

/-- Method `BatchManager._load_batch_items`: the batch's items, optionally filtered
by status, ordered by `item_index`. -/
def load_batch_items (s : Store) (batch_id : Nat)
    (status_filter : Option ItemStatus) : List ItemRec :=
  match status_filter with
  | some st =>
      sort_by_index (s.items.filter fun it => it.batch_id == batch_id && it.status == st)
  | none =>
      sort_by_index (s.items.filter fun it => it.batch_id == batch_id)

/-- The exception taxonomy of `exceptions.py` (hook exceptions that are not
framework errors are carried as `hook_error`). -/
inductive ImpError
  | batch_not_found (msg : String)
  | processor_not_found (msg : String)
  | processing_error (msg : String)
  | hook_error (msg : String)
deriving DecidableEq, Repr

/-- A processing contract (`BaseProcessor`): each hook is pure, returning
its value or the raised exception's message. -/
structure Processor where
  validate_batch : Bool
  on_batch_start : Option String
  should_skip_item : ItemRec → Bool
  validate_item : ItemRec → Bool
  process_item : ItemRec → Except String ProcessResult
  on_item_error : ItemRec → String → Bool
  on_batch_complete : Bool → Option String

/-- The processor registry (`registry.py`), keyed by `batch_type`. -/
abbrev Registry := List (String × Processor)

/-- Method `ProcessorRegistry.get` (as an `Option`; the Python method raises
`ProcessorNotFoundError` when absent). -/
def registry_get (reg : Registry) (batch_type : String) : Option Processor :=
  (reg.find? fun kv => kv.1 == batch_type).map Prod.snd

/-- Method `ProcessorRegistry.has`. -/
def registry_has (reg : Registry) (batch_type : String) : Bool :=
  (reg.find? fun kv => kv.1 == batch_type).isSome

/-- Method `BatchManager.create_batch`.  Verifies a processor is registered, then
inserts the batch (status PENDING) and one PENDING item per payload with
`item_index` from `enumerate`, and commits.  There is no emptiness check on
`items`. -/
def create_batch (reg : Registry) (st : Store) (fresh now : Nat) (batch_type : String)
    (items : List Json) (source_info metadata : Option Json) :
    Except ImpError (Nat × Store × Nat) :=
  if !registry_has reg batch_type then
    .error (.processor_not_found ("No processor registered for batch type: " ++ batch_type))
  else
    let batch_id := fresh
    let new_batch : BatchRec :=
      { id := batch_id
        batch_type := batch_type
        status := .pending
        source_info := some (source_info.getD Json.empty)
        metadata := some (metadata.getD Json.empty)
        started_at := none
        completed_at := none
        created_at := now
        updated_at := now
        error_message := none
        retry_count := 0
        parent_batch_id := none }
    let new_items : List ItemRec := items.enum.map fun pr =>
      { id := fresh + 1 + pr.1
        batch_id := batch_id
        item_index := pr.1
        status := .pending
        source_data := pr.2
        processed_data := none
        target_table := none
        target_id := none
        error_message := none
        processed_at := none
        created_at := now }
    .ok (batch_id, ⟨st.batches ++ [new_batch], st.items ++ new_items⟩, fresh + 1 + items.length)

/-- Result of one item loop run: the transaction after the loop, the two
in-memory counters, the ids of items on which contract hooks were invoked
(instrumentation: an id is recorded exactly when the loop body goes past the
`is_complete` guard, i.e. when `should_skip_item` -- and possibly
`validate_item` / `process_item` / `on_item_error` -- is called on it), and
the `ProcessingError` message when the loop aborted. -/
structure LoopRes where
  txn : Txn
  success_count : Nat
  failed_count : Nat
  calls : List Nat
  abort_msg : Option String
deriving Repr

/-- The per-item loop of `BatchManager.process_batch` (lines 193-242 of
`batch.py`).  Mirrors the source: already-terminal items are passed over
without any write or hook call; skip-predicate or validation rejections
write SKIPPED (uncommitted); a processed item gets PROCESSING then either
COMPLETED plus a commit, or -- on an exception -- a rollback, FAILED in a
fresh transaction, a commit, the `on_item_error` hook, and possibly a
`ProcessingError` abort. -/
def process_items (p : Processor) (continue_on_error : Bool) (now : Nat) :
    List ItemRec → Txn → Nat → Nat → List Nat → LoopRes
  | [], t, s, f, cs => ⟨t, s, f, cs, none⟩
  | item :: rest, t, s, f, cs =>
    if item.is_complete then
      process_items p continue_on_error now rest t s f cs
    else if p.should_skip_item item then
      process_items p continue_on_error now rest
        (t.write fun st => update_item_status st item.id .skipped) s f (cs ++ [item.id])
    else if !p.validate_item item then
      process_items p continue_on_error now rest
        (t.write fun st => update_item_status st item.id .skipped) s f (cs ++ [item.id])
    else
      let t1 := t.write fun st => update_item_status st item.id .processing
      match p.process_item item with
      | .ok result =>
          let t2 := (t1.write fun st => complete_item st item.id result now).commit
          process_items p continue_on_error now rest t2 (s + 1) f (cs ++ [item.id])
      | .error e =>
          let t2 := (t1.rollback.write fun st => fail_item st item.id e).commit
          if !p.on_item_error item e && !continue_on_error then
            ⟨t2, s, f + 1, cs ++ [item.id],
              some ("Batch processing aborted at item " ++ toString item.item_index ++ ": " ++ e)⟩
          else
            process_items p continue_on_error now rest t2 s (f + 1) (cs ++ [item.id])

/-- The final-status rule of `process_batch` (lines 244-251 of `batch.py`):
COMPLETED when no failures, FAILED when failures and no successes,
COMPLETED on partial success. -/
def finalize_status (failed_count success_count : Nat) : BatchStatus :=
  if failed_count = 0 then .completed
  else if success_count = 0 then .failed
  else .completed

/-- The `except` handler of `process_batch` (lines 263-269 of `batch.py`):
rollback, force the batch to FAILED with the exception's message
(`completed_at` defaults to None), commit. -/
def fail_batch_run (t : Txn) (batch_id : Nat) (now : Nat) (msg : String) : Store :=
  ((t.rollback.write fun s =>
      update_batch_status s batch_id .failed (some msg) none now).commit).committed

/-- Result of a `process_batch` call: the committed store after the run, the
two counters, the hook-call instrumentation, and the exception surfaced to
the caller (if any). -/
structure RunResult where
  store : Store
  success_count : Nat
  failed_count : Nat
  calls : List Nat
  error : Option ImpError
deriving Repr

/-- The body of `BatchManager.process_batch` after the batch is loaded and
the processor resolved, starting from the transaction `t1` that already
holds the uncommitted PROCESSING write: batch validation and the start hook
(failures go through the `except` handler), the item loop over the items
ordered by `item_index`, then either the `except` handler or the terminal
write `update_batch_status final_status none (some now)`. -/
def run_after_dispatch (p : Processor) (t1 : Txn) (now batch_id : Nat)
    (continue_on_error : Bool) : RunResult :=
  if !p.validate_batch then
    ⟨fail_batch_run t1 batch_id now "Batch validation failed", 0, 0, [],
      some (.processing_error "Batch validation failed")⟩
  else
    match p.on_batch_start with
    | some e => ⟨fail_batch_run t1 batch_id now e, 0, 0, [], some (.hook_error e)⟩
    | none =>
      let items := load_batch_items t1.current batch_id none
      let lr := process_items p continue_on_error now items t1 0 0 []
      match lr.abort_msg with
      | some msg =>
          ⟨fail_batch_run lr.txn batch_id now msg, lr.success_count, lr.failed_count,
            lr.calls, some (.processing_error msg)⟩
      | none =>
        let final_status := finalize_status lr.failed_count lr.success_count
        match p.on_batch_complete (final_status == BatchStatus.completed) with
        | some e =>
            ⟨fail_batch_run lr.txn batch_id now e, lr.success_count, lr.failed_count,
              lr.calls, some (.hook_error e)⟩
        | none =>
            ⟨((lr.txn.write fun s =>
                  update_batch_status s batch_id final_status none (some now) now).commit).committed,
              lr.success_count, lr.failed_count, lr.calls, none⟩

/-- Method `BatchManager.process_batch`.  Loads the batch (else
`BatchNotFoundError`), resolves the processor (else
`ProcessorNotFoundError`), writes PROCESSING (note: `started_at` is stamped
only on the in-memory `batch` object and never persisted), then runs
`run_after_dispatch`. -/
def process_batch (reg : Registry) (st : Store) (now : Nat) (batch_id : Nat)
    (continue_on_error : Bool) : RunResult :=
  match load_batch st batch_id with
  | none => ⟨st, 0, 0, [], some (.batch_not_found ("Batch not found: " ++ toString batch_id))⟩
  | some batch =>
    match registry_get reg batch.batch_type with
    | none =>
        ⟨st, 0, 0, [],
          some (.processor_not_found
            ("No processor registered for batch type: " ++ batch.batch_type))⟩
    | some p =>
      run_after_dispatch p
        ((Txn.mk st st).write fun s =>
          update_batch_status s batch_id .processing none none now)
        now batch_id continue_on_error

/-- One copied item row of the reprocess-creation step: only `source_data`
is carried over from the candidate; `item_index` is the candidate's
position in the candidate list; outcome and error columns stay unset. -/
def reprocess_item_row (fresh now : Nat) (pr : Nat × ItemRec) : ItemRec :=
  { id := fresh + 1 + pr.1
    batch_id := fresh
    item_index := pr.1
    status := .pending
    source_data := pr.2.source_data
    processed_data := none
    target_table := none
    target_id := none
    error_message := none
    processed_at := none
    created_at := now }

/-- The child batch row of the reprocess-creation step. -/
def reprocess_batch_row (orig : BatchRec) (orig_id fresh now : Nat) : BatchRec :=
  { id := fresh
    batch_type := orig.batch_type
    status := .pending
    source_info := some (orig.source_info.getD Json.empty)
    metadata := some (orig.metadata.getD Json.empty)
    started_at := none
    completed_at := none
    created_at := now
    updated_at := now
    error_message := none
    retry_count := 0
    parent_batch_id := some orig_id }

/-- The batch-and-items creation step of `BatchManager.reprocess_batch`
(lines 315-352 of `batch.py`): a new PENDING batch with the original's
`batch_type`, `source_info or ...`, `metadata or ...` and
`parent_batch_id`, plus one PENDING item per candidate carrying only the
candidate's `source_data`, `item_index` reassigned from `enumerate`. -/
def derive_reprocess (st : Store) (orig : BatchRec) (orig_id : Nat)
    (cands : List ItemRec) (fresh now : Nat) : Nat × Store × Nat :=
  (fresh,
    ⟨st.batches ++ [reprocess_batch_row orig orig_id fresh now],
      st.items ++ cands.enum.map (reprocess_item_row fresh now)⟩,
    fresh + 1 + cands.length)

/-- Result of a `reprocess_batch` call: the returned id (when no exception
escaped), the committed store, the fresh-id counter, and the surfaced
exception (if any). -/
structure ReprocessResult where
  returned : Option Nat
  store : Store
  fresh : Nat
  error : Option ImpError
deriving Repr

/-- Method `BatchManager.reprocess_batch`.  Loads the original batch (else
`BatchNotFoundError`), selects candidates (FAILED items only, or all
items), returns the original id on an empty candidate set, otherwise
creates the child batch (committed) and immediately drives it through
`process_batch`. -/
def reprocess_batch (reg : Registry) (st : Store) (fresh now : Nat) (batch_id : Nat)
    (failed_items_only continue_on_error : Bool) : ReprocessResult :=
  match load_batch st batch_id with
  | none => ⟨none, st, fresh, some (.batch_not_found ("Batch not found: " ++ toString batch_id))⟩
  | some original_batch =>
    let items :=
      if failed_items_only then load_batch_items st batch_id (some .failed)
      else load_batch_items st batch_id none
    if items.isEmpty then
      ⟨some batch_id, st, fresh, none⟩
    else
      let d := derive_reprocess st original_batch batch_id items fresh now
      let r := process_batch reg d.2.1 now d.1 continue_on_error
      match r.error with
      | some e => ⟨none, r.store, d.2.2, some e⟩
      | none => ⟨some d.1, r.store, d.2.2, none⟩

/-- Record `BatchSummary` from `models.py` (Python floats modelled as rationals). -/
structure BatchSummary where
  id : Nat
  batch_type : String
  status : BatchStatus
  created_at : Nat
  started_at : Option Nat
  completed_at : Option Nat
  retry_count : Nat
  total_items : Nat
  completed_items : Nat
  failed_items : Nat
  pending_items : Nat
  duration_seconds : Option ℚ
deriving DecidableEq, Repr

/-- Property `BatchSummary.success_rate`: 0 when `total_items == 0`, else
`completed_items / total_items * 100`. -/
def BatchSummary.success_rate (s : BatchSummary) : ℚ :=
  if s.total_items = 0 then 0
  else ((s.completed_items : ℚ) / (s.total_items : ℚ)) * 100

/-- Property `BatchSummary.items_per_second`: `total_items / duration_seconds` when
`duration_seconds` is truthy and positive, else `None` (Python's
`if self.duration_seconds and self.duration_seconds > 0`). -/
def BatchSummary.items_per_second (s : BatchSummary) : Option ℚ :=
  match s.duration_seconds with
  | some d => if 0 < d then some ((s.total_items : ℚ) / d) else none
  | none => none

/-! ### Basic lemmas about the store operations -/

@[simp] theorem Txn.write_current (t : Txn) (f : Store → Store) :
    (t.write f).current = f t.current := rfl

@[simp] theorem Txn.write_committed (t : Txn) (f : Store → Store) :
    (t.write f).committed = t.committed := rfl

@[simp] theorem Txn.commit_current (t : Txn) : t.commit.current = t.current := rfl

@[simp] theorem Txn.commit_committed (t : Txn) : t.commit.committed = t.current := rfl

@[simp] theorem Txn.rollback_current (t : Txn) : t.rollback.current = t.committed := rfl

@[simp] theorem Txn.rollback_committed (t : Txn) : t.rollback.committed = t.committed := rfl

/-- Query `SELECT * FROM import_batch_items WHERE id = ...` (lookup device used to
state per-item claims). -/
def find_item (s : Store) (item_id : Nat) : Option ItemRec :=
  s.items.find? fun it => it.id == item_id

@[simp] theorem load_batch_update_item_status (s : Store) (tid : Nat) (stat : ItemStatus)
    (bid : Nat) : load_batch (update_item_status s tid stat) bid = load_batch s bid := rfl

@[simp] theorem load_batch_complete_item (s : Store) (tid : Nat) (r : ProcessResult)
    (now bid : Nat) : load_batch (complete_item s tid r now) bid = load_batch s bid := rfl

@[simp] theorem load_batch_fail_item (s : Store) (tid : Nat) (m : String) (bid : Nat) :
    load_batch (fail_item s tid m) bid = load_batch s bid := rfl

@[simp] theorem find_item_map_batch (s : Store) (bid : Nat) (g : BatchRec → BatchRec)
    (xid : Nat) : find_item (map_batch s bid g) xid = find_item s xid := rfl

@[simp] theorem find_item_update_batch_status (s : Store) (bid : Nat) (stat : BatchStatus)
    (em : Option String) (ca : Option Nat) (now xid : Nat) :
    find_item (update_batch_status s bid stat em ca now) xid = find_item s xid := rfl

theorem find?_batch_map_if (l : List BatchRec) (bid : Nat) (g : BatchRec → BatchRec)
    (hg : ∀ b, (g b).id = b.id) :
    ((l.map fun b => if b.id == bid then g b else b).find? fun b => b.id == bid) =
      (l.find? fun b => b.id == bid).map g := by
  induction l with
  | nil => rfl
  | cons b bs ih =>
      simp only [List.map_cons]
      by_cases h : (b.id == bid) = true
      · have hgb : ((g b).id == bid) = true := by rw [hg b]; exact h
        rw [if_pos h, @List.find?_cons_of_pos _ (fun x => x.id == bid) (g b) _ hgb,
          @List.find?_cons_of_pos _ (fun x => x.id == bid) b _ h]
        rfl
      · rw [if_neg h, @List.find?_cons_of_neg _ (fun x => x.id == bid) b _ h,
          @List.find?_cons_of_neg _ (fun x => x.id == bid) b _ h]
        exact ih

/-- Looking up the updated batch id after `_update_batch_status` yields the
old row with exactly status, error_message, completed_at and updated_at
overwritten. -/
theorem load_batch_update_batch_status (s : Store) (bid : Nat) (stat : BatchStatus)
    (em : Option String) (ca : Option Nat) (now : Nat) :
    load_batch (update_batch_status s bid stat em ca now) bid =
      (load_batch s bid).map fun b =>
        { b with status := stat, error_message := em, completed_at := ca, updated_at := now } := by
  unfold load_batch update_batch_status map_batch
  exact find?_batch_map_if s.batches bid _ (fun b => rfl)

/-- The `except` handler leaves the failed batch row with the exception's
message, starting from whatever the row was in the committed store. -/
theorem load_batch_fail_batch_run (t : Txn) (bid now : Nat) (m : String) (B : BatchRec)
    (h : load_batch t.committed bid = some B) :
    load_batch (fail_batch_run t bid now m) bid =
      some { B with status := .failed, error_message := some m,
                    completed_at := none, updated_at := now } := by
  unfold fail_batch_run
  simp only [Txn.commit_committed, Txn.write_current, Txn.rollback_current]
  rw [load_batch_update_batch_status, h]
  rfl

theorem find?_item_map_if (l : List ItemRec) (tid : Nat) (g : ItemRec → ItemRec)
    (hg : ∀ it, (g it).id = it.id) (xid : Nat) :
    ((l.map fun it => if it.id == tid then g it else it).find? fun it => it.id == xid) =
      (l.find? fun it => it.id == xid).map fun it => if it.id == tid then g it else it := by
  induction l with
  | nil => rfl
  | cons a as ih =>
      simp only [List.map_cons]
      have hid : (if (a.id == tid) = true then g a else a).id = a.id := by
        by_cases h : (a.id == tid) = true
        · rw [if_pos h]; exact hg a
        · rw [if_neg h]
      by_cases hx : (a.id == xid) = true
      · have hx' : ((if (a.id == tid) = true then g a else a).id == xid) = true := by
          rw [hid]; exact hx
        rw [@List.find?_cons_of_pos ItemRec (fun it => it.id == xid) _ _ hx',
          @List.find?_cons_of_pos ItemRec (fun it => it.id == xid) a _ hx]
        rfl
      · have hx' : ¬ ((if (a.id == tid) = true then g a else a).id == xid) = true := by
          rw [hid]; exact hx
        rw [@List.find?_cons_of_neg ItemRec (fun it => it.id == xid) _ _ hx',
          @List.find?_cons_of_neg ItemRec (fun it => it.id == xid) a _ hx]
        exact ih

theorem find_item_map_item (s : Store) (tid : Nat) (g : ItemRec → ItemRec)
    (hg : ∀ it, (g it).id = it.id) (xid : Nat) :
    find_item (map_item s tid g) xid =
      (find_item s xid).map fun it => if it.id == tid then g it else it := by
  unfold find_item map_item
  exact find?_item_map_if s.items tid g hg xid

theorem find_item_some_id {s : Store} {xid : Nat} {x : ItemRec}
    (h : find_item s xid = some x) : x.id = xid := by
  have := List.find?_some h
  simpa using this

/-- A write targeting a different item id leaves the looked-up row intact. -/
theorem find_item_map_item_ne {s : Store} {tid : Nat} {g : ItemRec → ItemRec}
    (hg : ∀ it, (g it).id = it.id) {xid : Nat} {x : ItemRec}
    (h : find_item s xid = some x) (hne : xid ≠ tid) :
    find_item (map_item s tid g) xid = some x := by
  rw [find_item_map_item s tid g hg xid, h]
  have hxid : x.id = xid := find_item_some_id h
  have hcond : ¬ (x.id == tid) = true := by
    simp only [beq_iff_eq, hxid]
    exact hne
  simp only [Option.map_some']
  rw [if_neg hcond]

theorem find?_eq_of_nodup_ids (l : List ItemRec) (x : ItemRec)
    (hnd : (l.map fun it => it.id).Nodup) (hx : x ∈ l) :
    (l.find? fun it => it.id == x.id) = some x := by
  induction l with
  | nil => cases hx
  | cons a as ih =>
      rcases List.mem_cons.mp hx with rfl | hx'
      · exact List.find?_cons_of_pos _ (by simp)
      · have hnd' := hnd
        rw [List.map_cons, List.nodup_cons] at hnd'
        have hne : ¬ (a.id == x.id) = true := by
          simp only [beq_iff_eq]
          intro he
          exact hnd'.1 (he ▸ List.mem_map_of_mem (fun it => it.id) hx')
        rw [@List.find?_cons_of_neg ItemRec (fun it => it.id == x.id) a _ hne]
        exact ih hnd'.2 hx'

theorem find_item_of_nodup (s : Store) (x : ItemRec)
    (hnd : (s.items.map fun it => it.id).Nodup) (hx : x ∈ s.items) :
    find_item s x.id = some x :=
  find?_eq_of_nodup_ids s.items x hnd hx

theorem mem_insert_by_index {y x : ItemRec} {l : List ItemRec} :
    y ∈ insert_by_index x l ↔ y = x ∨ y ∈ l := by
  induction l with
  | nil => simp [insert_by_index]
  | cons a as ih =>
      unfold insert_by_index
      by_cases h : x.item_index ≤ a.item_index
      · simp [h]
      · simp only [if_neg h, List.mem_cons, ih]
        tauto

theorem mem_sort_by_index {y : ItemRec} {l : List ItemRec} :
    y ∈ sort_by_index l ↔ y ∈ l := by
  induction l with
  | nil => simp [sort_by_index]
  | cons a as ih =>
      unfold sort_by_index at *
      simp only [List.foldr_cons, mem_insert_by_index, ih, List.mem_cons]

/-- Every row returned by `_load_batch_items` is a row of the store. -/
theorem load_batch_items_subset {s : Store} {bid : Nat} {filt : Option ItemStatus}
    {it : ItemRec} (h : it ∈ load_batch_items s bid filt) : it ∈ s.items := by
  unfold load_batch_items at h
  cases filt with
  | none => exact (List.mem_filter.mp (mem_sort_by_index.mp h)).1
  | some st => exact (List.mem_filter.mp (mem_sort_by_index.mp h)).1

/-! ### Loop invariants -/

/-- The item loop only writes item rows and shuffles the two transaction
views, so the looked-up batch row of each view always remains one of the two
values it had on entry. -/
theorem process_items_find_batch (p : Processor) (c : Bool) (now bid : Nat)
    (v w : Option BatchRec) :
    ∀ (l : List ItemRec) (t : Txn) (s f : Nat) (cs : List Nat),
      (load_batch t.current bid = v ∨ load_batch t.current bid = w) →
      (load_batch t.committed bid = v ∨ load_batch t.committed bid = w) →
      ((load_batch (process_items p c now l t s f cs).txn.current bid = v ∨
          load_batch (process_items p c now l t s f cs).txn.current bid = w) ∧
        (load_batch (process_items p c now l t s f cs).txn.committed bid = v ∨
          load_batch (process_items p c now l t s f cs).txn.committed bid = w)) := by
  intro l
  induction l with
  | nil =>
      intro t s f cs hc hm
      exact ⟨hc, hm⟩
  | cons item rest ih =>
      intro t s f cs hc hm
      simp only [process_items]
      by_cases h1 : item.is_complete = true
      · rw [if_pos h1]
        exact ih t s f cs hc hm
      · rw [if_neg h1]
        by_cases h2 : p.should_skip_item item = true
        · rw [if_pos h2]
          exact ih _ s f _ (by simpa using hc) (by simpa using hm)
        · rw [if_neg h2]
          by_cases h3 : (!p.validate_item item) = true
          · rw [if_pos h3]
            exact ih _ s f _ (by simpa using hc) (by simpa using hm)
          · rw [if_neg h3]
            cases hp : p.process_item item with
            | ok result =>
                simp only [hp]
                exact ih _ (s + 1) f _ (by simpa using hc) (by simpa using hc)
            | error e =>
                simp only [hp]
                by_cases h4 : (!p.on_item_error item e && !c) = true
                · rw [if_pos h4]
                  exact ⟨by simpa using hm, by simpa using hm⟩
                · rw [if_neg h4]
                  exact ih _ s (f + 1) _ (by simpa using hm) (by simpa using hm)

theorem find_item_update_item_status_ne {s : Store} {tid : Nat} {stat : ItemStatus}
    {xid : Nat} {x : ItemRec} (h : find_item s xid = some x) (hne : xid ≠ tid) :
    find_item (update_item_status s tid stat) xid = some x :=
  @find_item_map_item_ne s tid (fun it => { it with status := stat }) (fun _ => rfl) xid x h hne

theorem find_item_complete_item_ne {s : Store} {tid : Nat} {r : ProcessResult} {now : Nat}
    {xid : Nat} {x : ItemRec} (h : find_item s xid = some x) (hne : xid ≠ tid) :
    find_item (complete_item s tid r now) xid = some x :=
  @find_item_map_item_ne s tid
    (fun it =>
      { it with
          status := .completed
          processed_data := r.processed_data
          target_table := r.target_table
          target_id := r.target_id
          processed_at := some now })
    (fun _ => rfl) xid x h hne

theorem find_item_fail_item_ne {s : Store} {tid : Nat} {m : String}
    {xid : Nat} {x : ItemRec} (h : find_item s xid = some x) (hne : xid ≠ tid) :
    find_item (fail_item s tid m) xid = some x :=
  @find_item_map_item_ne s tid
    (fun it => { it with status := .failed, error_message := some m })
    (fun _ => rfl) xid x h hne

/-- For an already-terminal row `x` whose id no pending (non-terminal) item
of the work list shares, the loop never touches the row in either view and
never invokes a contract hook on it. -/
theorem process_items_terminal_untouched (p : Processor) (c : Bool) (now : Nat)
    (x : ItemRec) :
    ∀ (l : List ItemRec) (t : Txn) (s f : Nat) (cs : List Nat),
      (∀ it ∈ l, it.is_complete = false → it.id ≠ x.id) →
      find_item t.current x.id = some x →
      find_item t.committed x.id = some x →
      x.id ∉ cs →
      (find_item (process_items p c now l t s f cs).txn.current x.id = some x ∧
        find_item (process_items p c now l t s f cs).txn.committed x.id = some x ∧
        x.id ∉ (process_items p c now l t s f cs).calls) := by
  intro l
  induction l with
  | nil =>
      intro t s f cs _ hc hm hcs
      exact ⟨hc, hm, hcs⟩
  | cons item rest ih =>
      intro t s f cs hl hc hm hcs
      have hrest : ∀ it ∈ rest, it.is_complete = false → it.id ≠ x.id := by
        intro it hit
        exact hl it (List.mem_cons_of_mem item hit)
      simp only [process_items]
      by_cases h1 : item.is_complete = true
      · rw [if_pos h1]
        exact ih t s f cs hrest hc hm hcs
      · have hne : item.id ≠ x.id :=
          hl item (List.mem_cons_self item rest) (by simpa using h1)
        have hne' : x.id ≠ item.id := fun he => hne he.symm
        have hcs' : x.id ∉ cs ++ [item.id] := by
          intro hmem
          rcases List.mem_append.mp hmem with h | h
          · exact hcs h
          · exact hne' (by simpa using h)
        rw [if_neg h1]
        by_cases h2 : p.should_skip_item item = true
        · rw [if_pos h2]
          refine ih _ s f _ hrest ?_ ?_ hcs'
          · simpa using find_item_update_item_status_ne hc hne'
          · simpa using hm
        · rw [if_neg h2]
          by_cases h3 : (!p.validate_item item) = true
          · rw [if_pos h3]
            refine ih _ s f _ hrest ?_ ?_ hcs'
            · simpa using find_item_update_item_status_ne hc hne'
            · simpa using hm
          · rw [if_neg h3]
            cases hp : p.process_item item with
            | ok result =>
                simp only [hp]
                have hcur :
                    find_item (complete_item (update_item_status t.current item.id .processing)
                        item.id result now) x.id = some x := by
                  have h5 : find_item (update_item_status t.current item.id .processing) x.id =
                      some x := find_item_update_item_status_ne hc hne'
                  exact find_item_complete_item_ne h5 hne'
                refine ih _ (s + 1) f _ hrest ?_ ?_ hcs'
                · simpa using hcur
                · simpa using hcur
            | error e =>
                simp only [hp]
                have hcur :
                    find_item (fail_item t.committed item.id e) x.id = some x :=
                  find_item_fail_item_ne hm hne'
                by_cases h4 : (!p.on_item_error item e && !c) = true
                · rw [if_pos h4]
                  exact ⟨by simpa using hcur, by simpa using hcur, hcs'⟩
                · rw [if_neg h4]
                  refine ih _ s (f + 1) _ hrest ?_ ?_ hcs'
                  · simpa using hcur
                  · simpa using hcur

/-- Case analysis of `run_after_dispatch`: either an orchestration-level
exception is surfaced and the batch row ends FAILED carrying that
exception's message (`completed_at` cleared), or the run ends cleanly and
the batch row carries the final-status rule's verdict with `error_message`
cleared and `completed_at` stamped. -/
theorem run_after_dispatch_spine (p : Processor) (now bid : Nat) (c : Bool)
    (t1 : Txn) (B0 : BatchRec)
    (hcur : load_batch t1.current bid =
      some { B0 with status := .processing, error_message := none,
                     completed_at := none, updated_at := now })
    (hcom : load_batch t1.committed bid = some B0) :
    (∃ m,
      ((run_after_dispatch p t1 now bid c).error = some (.processing_error m) ∨
        (run_after_dispatch p t1 now bid c).error = some (.hook_error m)) ∧
      load_batch (run_after_dispatch p t1 now bid c).store bid =
        some { B0 with status := .failed, error_message := some m,
                       completed_at := none, updated_at := now }) ∨
    ((run_after_dispatch p t1 now bid c).error = none ∧
      load_batch (run_after_dispatch p t1 now bid c).store bid =
        some { B0 with
                 status := finalize_status (run_after_dispatch p t1 now bid c).failed_count
                   (run_after_dispatch p t1 now bid c).success_count,
                 error_message := none, completed_at := some now, updated_at := now }) := by
  unfold run_after_dispatch
  by_cases hv : (!p.validate_batch) = true
  · rw [if_pos hv]
    left
    exact ⟨"Batch validation failed", Or.inl rfl,
      load_batch_fail_batch_run t1 bid now _ B0 hcom⟩
  · rw [if_neg hv]
    cases hs : p.on_batch_start with
    | some e =>
        left
        exact ⟨e, Or.inr rfl, load_batch_fail_batch_run t1 bid now _ B0 hcom⟩
    | none =>
        simp only
        have hloop := process_items_find_batch p c now bid
          (some { B0 with status := .processing, error_message := none,
                          completed_at := none, updated_at := now })
          (some B0)
          (load_batch_items t1.current bid none) t1 0 0 [] (Or.inl hcur) (Or.inr hcom)
        set lr := process_items p c now (load_batch_items t1.current bid none) t1 0 0 []
          with hlr
        obtain ⟨hc2, hm2⟩ := hloop
        cases ha : lr.abort_msg with
        | some msg =>
            simp only [ha]
            left
            refine ⟨msg, Or.inl rfl, ?_⟩
            rcases hm2 with h | h
            · have hres := load_batch_fail_batch_run lr.txn bid now msg _ h
              exact hres
            · have hres := load_batch_fail_batch_run lr.txn bid now msg _ h
              exact hres
        | none =>
            simp only [ha]
            cases hb : p.on_batch_complete
                (finalize_status lr.failed_count lr.success_count == BatchStatus.completed) with
            | some e =>
                simp only [hb]
                left
                refine ⟨e, Or.inr rfl, ?_⟩
                rcases hm2 with h | h
                · have hres := load_batch_fail_batch_run lr.txn bid now e _ h
                  exact hres
                · have hres := load_batch_fail_batch_run lr.txn bid now e _ h
                  exact hres
            | none =>
                simp only [hb]
                right
                refine ⟨by trivial, ?_⟩
                show load_batch
                  (update_batch_status lr.txn.current bid
                    (finalize_status lr.failed_count lr.success_count) none (some now) now) bid =
                  some _
                rw [load_batch_update_batch_status]
                rcases hc2 with h | h
                · rw [h]; rfl
                · rw [h]; rfl

/-- Full case analysis of a `process_batch` run: either the batch or the
processor is missing (store untouched), or an orchestration-level exception
leaves the batch FAILED with the exception's message, or the run finishes
cleanly and the batch carries the final-status rule's verdict. -/
theorem process_batch_spine (reg : Registry) (st : Store) (now bid : Nat) (c : Bool) :
    ((process_batch reg st now bid c).store = st ∧
      ((load_batch st bid = none ∧
          (process_batch reg st now bid c).error =
            some (.batch_not_found ("Batch not found: " ++ toString bid))) ∨
        (∃ B0, load_batch st bid = some B0 ∧ registry_get reg B0.batch_type = none ∧
          (process_batch reg st now bid c).error =
            some (.processor_not_found
              ("No processor registered for batch type: " ++ B0.batch_type))))) ∨
    (∃ m B0, load_batch st bid = some B0 ∧
      ((process_batch reg st now bid c).error = some (.processing_error m) ∨
        (process_batch reg st now bid c).error = some (.hook_error m)) ∧
      load_batch (process_batch reg st now bid c).store bid =
        some { B0 with status := .failed, error_message := some m,
                       completed_at := none, updated_at := now }) ∨
    ((process_batch reg st now bid c).error = none ∧
      ∃ B0, load_batch st bid = some B0 ∧
        load_batch (process_batch reg st now bid c).store bid =
          some { B0 with
                   status := finalize_status (process_batch reg st now bid c).failed_count
                     (process_batch reg st now bid c).success_count,
                   error_message := none, completed_at := some now, updated_at := now }) := by
  cases hl : load_batch st bid with
  | none =>
      left
      refine ⟨?_, Or.inl ⟨rfl, ?_⟩⟩
      · simp [process_batch, hl]
      · simp [process_batch, hl]
  | some B0 =>
      cases hr : registry_get reg B0.batch_type with
      | none =>
          left
          refine ⟨?_, Or.inr ⟨B0, rfl, hr, ?_⟩⟩
          · simp [process_batch, hl, hr]
          · simp [process_batch, hl, hr]
      | some p =>
          have hpb : process_batch reg st now bid c =
              run_after_dispatch p
                ((Txn.mk st st).write fun s =>
                  update_batch_status s bid .processing none none now)
                now bid c := by
            simp [process_batch, hl, hr]
          have hcur : load_batch
              ((Txn.mk st st).write fun s =>
                update_batch_status s bid .processing none none now).current bid =
              some { B0 with status := .processing, error_message := none,
                             completed_at := none, updated_at := now } := by
            simp only [Txn.write_current]
            rw [load_batch_update_batch_status, hl]
            rfl
          have hcom : load_batch
              ((Txn.mk st st).write fun s =>
                update_batch_status s bid .processing none none now).committed bid =
              some B0 := by
            simp only [Txn.write_committed]
            exact hl
          have hsp := run_after_dispatch_spine p now bid c _ B0 hcur hcom
          rw [hpb]
          rcases hsp with ⟨m, herr, hload⟩ | ⟨herr, hload⟩
          · exact Or.inr (Or.inl ⟨m, B0, rfl, herr, hload⟩)
          · exact Or.inr (Or.inr ⟨herr, B0, rfl, hload⟩)

/-- Every FAILED item row carries an error message. -/
def failed_items_ok (s : Store) : Prop :=
  ∀ it ∈ s.items, it.status = ItemStatus.failed → it.error_message.isSome = true

@[simp] theorem items_map_batch (s : Store) (bid : Nat) (g : BatchRec → BatchRec) :
    (map_batch s bid g).items = s.items := rfl

theorem failed_items_ok_update_batch_status {s : Store} {bid : Nat} {stat : BatchStatus}
    {em : Option String} {ca : Option Nat} {now : Nat} (h : failed_items_ok s) :
    failed_items_ok (update_batch_status s bid stat em ca now) := h

theorem failed_items_ok_map_item {s : Store} {tid : Nat} {g : ItemRec → ItemRec}
    (hg : ∀ it, (g it).status = ItemStatus.failed → (g it).error_message.isSome = true)
    (h : failed_items_ok s) : failed_items_ok (map_item s tid g) := by
  intro it hit hst
  simp only [map_item] at hit
  rcases List.mem_map.mp hit with ⟨a, ha, rfl⟩
  by_cases hcnd : (a.id == tid) = true
  · rw [if_pos hcnd] at hst ⊢
    exact hg a hst
  · rw [if_neg hcnd] at hst ⊢
    exact h a ha hst

theorem failed_items_ok_update_item_status {s : Store} {tid : Nat} {stat : ItemStatus}
    (hstat : stat ≠ ItemStatus.failed) (h : failed_items_ok s) :
    failed_items_ok (update_item_status s tid stat) :=
  failed_items_ok_map_item (fun _ hf => absurd hf hstat) h

theorem failed_items_ok_complete_item {s : Store} {tid : Nat} {r : ProcessResult} {now : Nat}
    (h : failed_items_ok s) : failed_items_ok (complete_item s tid r now) :=
  failed_items_ok_map_item (fun _ hf => ItemStatus.noConfusion hf) h

theorem failed_items_ok_fail_item {s : Store} {tid : Nat} {m : String}
    (h : failed_items_ok s) : failed_items_ok (fail_item s tid m) :=
  failed_items_ok_map_item (fun _ _ => rfl) h

/-- The item loop preserves "every FAILED item carries a message" in both
transaction views: the only write that makes an item FAILED is
`_fail_item`, which also writes the message. -/
theorem process_items_failed_ok (p : Processor) (c : Bool) (now : Nat) :
    ∀ (l : List ItemRec) (t : Txn) (s f : Nat) (cs : List Nat),
      failed_items_ok t.current → failed_items_ok t.committed →
      (failed_items_ok (process_items p c now l t s f cs).txn.current ∧
        failed_items_ok (process_items p c now l t s f cs).txn.committed) := by
  intro l
  induction l with
  | nil =>
      intro t s f cs hc hm
      exact ⟨hc, hm⟩
  | cons item rest ih =>
      intro t s f cs hc hm
      simp only [process_items]
      by_cases h1 : item.is_complete = true
      · rw [if_pos h1]
        exact ih t s f cs hc hm
      · rw [if_neg h1]
        by_cases h2 : p.should_skip_item item = true
        · rw [if_pos h2]
          exact ih _ s f _
            (failed_items_ok_update_item_status (by intro hx; cases hx) hc) hm
        · rw [if_neg h2]
          by_cases h3 : (!p.validate_item item) = true
          · rw [if_pos h3]
            exact ih _ s f _
              (failed_items_ok_update_item_status (by intro hx; cases hx) hc) hm
          · rw [if_neg h3]
            cases hp : p.process_item item with
            | ok result =>
                simp only [hp]
                have hcur : failed_items_ok
                    (complete_item (update_item_status t.current item.id .processing)
                      item.id result now) :=
                  failed_items_ok_complete_item
                    (failed_items_ok_update_item_status (by intro hx; cases hx) hc)
                exact ih _ (s + 1) f _ hcur hcur
            | error e =>
                simp only [hp]
                have hcur : failed_items_ok (fail_item t.committed item.id e) :=
                  failed_items_ok_fail_item hm
                by_cases h4 : (!p.on_item_error item e && !c) = true
                · rw [if_pos h4]
                  exact ⟨hcur, hcur⟩
                · rw [if_neg h4]
                  exact ih _ s (f + 1) _ hcur hcur

/-- A whole `process_batch` run preserves "every FAILED item carries a
message" on the committed store. -/
theorem process_batch_failed_ok (reg : Registry) (st : Store) (now bid : Nat) (c : Bool)
    (h : failed_items_ok st) : failed_items_ok (process_batch reg st now bid c).store := by
  cases hl : load_batch st bid with
  | none => simpa [process_batch, hl] using h
  | some B0 =>
      cases hr : registry_get reg B0.batch_type with
      | none => simpa [process_batch, hl, hr] using h
      | some p =>
          have hpb : process_batch reg st now bid c =
              run_after_dispatch p
                ((Txn.mk st st).write fun s =>
                  update_batch_status s bid .processing none none now)
                now bid c := by
            simp [process_batch, hl, hr]
          rw [hpb]
          have hc1 : failed_items_ok
              ((Txn.mk st st).write fun s =>
                update_batch_status s bid .processing none none now).current :=
            failed_items_ok_update_batch_status h
          have hm1 : failed_items_ok
              ((Txn.mk st st).write fun s =>
                update_batch_status s bid .processing none none now).committed := h
          unfold run_after_dispatch
          by_cases hv : (!p.validate_batch) = true
          · rw [if_pos hv]
            show failed_items_ok (fail_batch_run _ bid now _)
            exact failed_items_ok_update_batch_status hm1
          · rw [if_neg hv]
            cases hs : p.on_batch_start with
            | some e =>
                show failed_items_ok (fail_batch_run _ bid now _)
                exact failed_items_ok_update_batch_status hm1
            | none =>
                simp only
                have hloop := process_items_failed_ok p c now
                  (load_batch_items
                    ((Txn.mk st st).write fun s =>
                      update_batch_status s bid .processing none none now).current bid none)
                  _ 0 0 [] hc1 hm1
                set lr := process_items p c now
                  (load_batch_items
                    ((Txn.mk st st).write fun s =>
                      update_batch_status s bid .processing none none now).current bid none)
                  ((Txn.mk st st).write fun s =>
                    update_batch_status s bid .processing none none now) 0 0 [] with hlr
                obtain ⟨hc2, hm2⟩ := hloop
                cases ha : lr.abort_msg with
                | some msg =>
                    simp only [ha]
                    exact failed_items_ok_update_batch_status hm2
                | none =>
                    simp only [ha]
                    cases hb : p.on_batch_complete
                        (finalize_status lr.failed_count lr.success_count ==
                          BatchStatus.completed) with
                    | some e =>
                        simp only [hb]
                        exact failed_items_ok_update_batch_status hm2
                    | none =>
                        simp only [hb]
                        exact failed_items_ok_update_batch_status hc2

@[simp] theorem items_update_batch_status (s : Store) (bid : Nat) (stat : BatchStatus)
    (em : Option String) (ca : Option Nat) (now : Nat) :
    (update_batch_status s bid stat em ca now).items = s.items := rfl

/-- A whole `process_batch` run neither rewrites the row of an
already-terminal item (in the committed store) nor invokes any contract
hook on it, provided item ids are unique. -/
theorem process_batch_terminal_untouched (reg : Registry) (st : Store) (now bid : Nat)
    (c : Bool) (x : ItemRec)
    (hnd : (st.items.map fun it => it.id).Nodup)
    (hx : x ∈ st.items) (hterm : x.is_complete = true) :
    find_item (process_batch reg st now bid c).store x.id = some x ∧
      x.id ∉ (process_batch reg st now bid c).calls := by
  have hfind : find_item st x.id = some x := find_item_of_nodup st x hnd hx
  cases hl : load_batch st bid with
  | none =>
      constructor
      · simpa [process_batch, hl] using hfind
      · simp [process_batch, hl]
  | some B0 =>
      cases hr : registry_get reg B0.batch_type with
      | none =>
          constructor
          · simpa [process_batch, hl, hr] using hfind
          · simp [process_batch, hl, hr]
      | some p =>
          have hpb : process_batch reg st now bid c =
              run_after_dispatch p
                ((Txn.mk st st).write fun s =>
                  update_batch_status s bid .processing none none now)
                now bid c := by
            simp [process_batch, hl, hr]
          rw [hpb]
          have hc1 : find_item
              ((Txn.mk st st).write fun s =>
                update_batch_status s bid .processing none none now).current x.id =
              some x := hfind
          have hm1 : find_item
              ((Txn.mk st st).write fun s =>
                update_batch_status s bid .processing none none now).committed x.id =
              some x := hfind
          have hwork : ∀ it ∈ load_batch_items
              ((Txn.mk st st).write fun s =>
                update_batch_status s bid .processing none none now).current bid none,
              it.is_complete = false → it.id ≠ x.id := by
            intro it hit hinc hid
            have hit0 := load_batch_items_subset hit
            have hit' : it ∈ st.items := hit0
            have : it = x := List.inj_on_of_nodup_map hnd hit' hx hid
            rw [this, hterm] at hinc
            cases hinc
          unfold run_after_dispatch
          by_cases hv : (!p.validate_batch) = true
          · rw [if_pos hv]
            exact ⟨hm1, by simp⟩
          · rw [if_neg hv]
            cases hs : p.on_batch_start with
            | some e => exact ⟨hm1, by simp⟩
            | none =>
                simp only
                have hloop := process_items_terminal_untouched p c now x
                  (load_batch_items
                    ((Txn.mk st st).write fun s =>
                      update_batch_status s bid .processing none none now).current bid none)
                  ((Txn.mk st st).write fun s =>
                    update_batch_status s bid .processing none none now) 0 0 []
                  hwork hc1 hm1 (by simp)
                set lr := process_items p c now
                  (load_batch_items
                    ((Txn.mk st st).write fun s =>
                      update_batch_status s bid .processing none none now).current bid none)
                  ((Txn.mk st st).write fun s =>
                    update_batch_status s bid .processing none none now) 0 0 [] with hlr
                obtain ⟨hc2, hm2, hcalls⟩ := hloop
                cases ha : lr.abort_msg with
                | some msg =>
                    simp only [ha]
                    exact ⟨hm2, hcalls⟩
                | none =>
                    simp only [ha]
                    cases hb : p.on_batch_complete
                        (finalize_status lr.failed_count lr.success_count ==
                          BatchStatus.completed) with
                    | some e =>
                        simp only [hb]
                        exact ⟨hm2, hcalls⟩
                    | none =>
                        simp only [hb]
                        exact ⟨hc2, hcalls⟩

/-! ### Helpers for the claim theorems -/

theorem finalize_status_eq (f s : Nat) :
    finalize_status f s =
      if s = 0 ∧ 0 < f then BatchStatus.failed else BatchStatus.completed := by
  unfold finalize_status
  by_cases hf : f = 0
  · subst hf
    simp
  · rw [if_neg hf]
    by_cases hs : s = 0
    · subst hs
      rw [if_pos rfl, if_pos ⟨rfl, Nat.pos_of_ne_zero hf⟩]
    · rw [if_neg hs, if_neg fun hc => hs hc.1]

theorem finalize_status_cases (f s : Nat) :
    finalize_status f s = BatchStatus.completed ∨ finalize_status f s = BatchStatus.failed := by
  rw [finalize_status_eq]
  by_cases h : s = 0 ∧ 0 < f
  · rw [if_pos h]; exact Or.inr rfl
  · rw [if_neg h]; exact Or.inl rfl

/-- A processor with every optional hook at its default and a `process_item`
that succeeds with an empty outcome dict. -/
def trivial_processor : Processor :=
  { validate_batch := true
    on_batch_start := none
    should_skip_item := fun _ => false
    validate_item := fun _ => true
    process_item := fun _ => .ok ⟨none, none, none⟩
    on_item_error := fun _ _ => true
    on_batch_complete := fun _ => none }

/-- A freshly created batch row, as `create_batch` inserts it. -/
def mk_batch (bid : Nat) (bt : String) (stat : BatchStatus) (em : Option String) : BatchRec :=
  { id := bid, batch_type := bt, status := stat, source_info := some Json.empty,
    metadata := some Json.empty, started_at := none, completed_at := none,
    created_at := 0, updated_at := 0, error_message := em, retry_count := 0,
    parent_batch_id := none }

/-- An item row in a given status with no outcome fields. -/
def mk_item (iid bid idx : Nat) (stat : ItemStatus) : ItemRec :=
  { id := iid, batch_id := bid, item_index := idx, status := stat,
    source_data := ⟨"payload"⟩, processed_data := none, target_table := none,
    target_id := none, error_message := none, processed_at := none, created_at := 0 }

/-! ### C8 -/

def c8_reg : Registry := [("t", trivial_processor)]

def c8_store : Store := ⟨[mk_batch 0 "t" .pending none], [mk_item 1 0 0 .pending]⟩

def c8_run : RunResult := process_batch c8_reg c8_store 11 0 true

/-- C8: on a batch created PENDING with `started_at` unset, a full
successful `process_batch` run (PENDING→PROCESSING→COMPLETED) leaves the
durable batch record's `started_at` still unset: `_update_batch_status`
never writes `started_at`, and the `batch.started_at = utcnow()` assignment
in `process_batch` touches only the in-memory object.  This contradicts the
claim that step 1 stamps and persists `startedAt`. -/
theorem c8_started_at_never_persisted :
    (load_batch c8_store 0).map (fun b => b.started_at) = some none ∧
    c8_run.error = none ∧
    (load_batch c8_run.store 0).map (fun b => b.status) = some BatchStatus.completed ∧
    (load_batch c8_run.store 0).map (fun b => b.started_at) = some none := by
  decide

/-! ### C9 -/

/-- C9: `success_rate` is 0 when `total_items` is 0 and
`completed_items / total_items * 100` otherwise; `items_per_second` is
`total_items / duration_seconds` exactly when `duration_seconds` is present
and positive, and absent otherwise. -/
theorem c9_summary_math (s : BatchSummary) :
    (s.total_items = 0 → s.success_rate = 0) ∧
    (s.total_items ≠ 0 →
      s.success_rate = ((s.completed_items : ℚ) / (s.total_items : ℚ)) * 100) ∧
    (∀ d : ℚ, s.duration_seconds = some d → 0 < d →
      s.items_per_second = some ((s.total_items : ℚ) / d)) ∧
    (s.duration_seconds = none → s.items_per_second = none) ∧
    (∀ d : ℚ, s.duration_seconds = some d → ¬ 0 < d → s.items_per_second = none) := by
  refine ⟨?_, ?_, ?_, ?_, ?_⟩
  · intro h
    simp [BatchSummary.success_rate, h]
  · intro h
    simp [BatchSummary.success_rate, h]
  · intro d hd hpos
    simp [BatchSummary.items_per_second, hd, hpos]
  · intro h
    simp [BatchSummary.items_per_second, h]
  · intro d hd hneg
    simp [BatchSummary.items_per_second, hd, hneg]

def c9w_summary : BatchSummary :=
  { id := 0, batch_type := "t", status := .completed, created_at := 0,
    started_at := some 0, completed_at := some 2, retry_count := 0,
    total_items := 4, completed_items := 2, failed_items := 1,
    pending_items := 0, duration_seconds := some 2 }

theorem c9_summary_math_witness :
    c9w_summary.success_rate = 50 ∧ c9w_summary.items_per_second = some 2 := by
  have h := c9_summary_math c9w_summary
  constructor
  · rw [h.2.1 (by decide)]
    show ((2 : Nat) : ℚ) / ((4 : Nat) : ℚ) * 100 = 50
    norm_num
  · rw [h.2.2.1 2 rfl (by norm_num)]
    show some (((4 : Nat) : ℚ) / 2) = some 2
    norm_num

/-! ### C1 -/

/-- A processor whose first item succeeds and whose later items fail, with
an item-error hook that requests a stop. -/
def c1_processor : Processor :=
  { validate_batch := true
    on_batch_start := none
    should_skip_item := fun _ => false
    validate_item := fun _ => true
    process_item := fun it =>
      if it.item_index == 0 then .ok ⟨none, none, none⟩ else .error "boom"
    on_item_error := fun _ _ => false
    on_batch_complete := fun _ => none }

def c1_reg : Registry := [("t", c1_processor)]

def c1_store : Store :=
  ⟨[mk_batch 0 "t" .pending none], [mk_item 1 0 0 .pending, mk_item 2 0 1 .pending]⟩

def c1_run : RunResult := process_batch c1_reg c1_store 5 0 false

/-- C1 counterexample: with 2 items, `continue_on_error = false` and an
item-error hook that stops the run, the loop records s = 1 success and
f = 1 failure, every item ends terminal (so the hypothesis "f+s ≤ N, the
rest skipped or already terminal" holds), yet the terminal batch status is
FAILED — not the COMPLETED the rule `FAILED iff s == 0 and f > 0`
prescribes: the abort raises a ProcessingError and the handler forces
FAILED regardless of the success count. -/
theorem c1_counterexample :
    c1_run.success_count = 1 ∧ c1_run.failed_count = 1 ∧
    (∀ it ∈ c1_run.store.items, it.is_complete = true) ∧
    (load_batch c1_run.store 0).map (fun b => b.status) = some BatchStatus.failed ∧
    ¬ ((load_batch c1_run.store 0).map (fun b => b.status) =
        some (if c1_run.success_count = 0 ∧ 0 < c1_run.failed_count
              then BatchStatus.failed else BatchStatus.completed)) := by
  decide

/-- C1 (amended): for every `process_batch` run that surfaces no exception
(in particular the run was not aborted by a stop-requesting item-error hook
with `continue_on_error = false`), the terminal batch status is FAILED iff
the loop recorded zero successes and at least one failure, and COMPLETED
otherwise (including the all-skipped and all-success cases). -/
theorem c1_terminal_status_rule (reg : Registry) (st : Store) (now bid : Nat) (c : Bool)
    (h : (process_batch reg st now bid c).error = none) :
    (load_batch (process_batch reg st now bid c).store bid).map (fun b => b.status) =
      some (if (process_batch reg st now bid c).success_count = 0 ∧
                0 < (process_batch reg st now bid c).failed_count
            then BatchStatus.failed else BatchStatus.completed) := by
  rcases process_batch_spine reg st now bid c with
    ⟨_, hcase⟩ | ⟨m, B0, _, herr, _⟩ | ⟨_, B0, _, hload⟩
  · rcases hcase with ⟨_, he⟩ | ⟨B1, _, _, he⟩ <;> rw [he] at h <;> cases h
  · rcases herr with he | he <;> rw [he] at h <;> cases h
  · rw [hload]
    simp only [Option.map_some']
    show some (finalize_status (process_batch reg st now bid c).failed_count
      (process_batch reg st now bid c).success_count) = _
    rw [finalize_status_eq]

def c1w_reg : Registry := [("t", trivial_processor)]

def c1w_store : Store :=
  ⟨[mk_batch 0 "t" .pending none], [mk_item 1 0 0 .pending]⟩

theorem c1_terminal_status_rule_witness :
    (process_batch c1w_reg c1w_store 5 0 true).error = none ∧
    (load_batch (process_batch c1w_reg c1w_store 5 0 true).store 0).map (fun b => b.status) =
      some (if (process_batch c1w_reg c1w_store 5 0 true).success_count = 0 ∧
                0 < (process_batch c1w_reg c1w_store 5 0 true).failed_count
            then BatchStatus.failed else BatchStatus.completed) :=
  ⟨by decide, c1_terminal_status_rule c1w_reg c1w_store 5 0 true (by decide)⟩

/-! ### C2 -/

def c2_reg : Registry := [("t", trivial_processor)]

def c2_store : Store :=
  ⟨[mk_batch 0 "t" .failed (some "earlier failure")], [mk_item 1 0 0 .pending]⟩

def c2_run : RunResult := process_batch c2_reg c2_store 9 0 true

/-- C2 counterexample: `process_batch` has no terminal-state guard — run on
a batch already in the terminal state FAILED (with a pending item left
over), it moves the batch back to PROCESSING and finishes it COMPLETED, so
an operation does move a batch out of a terminal state. -/
theorem c2_counterexample :
    (mk_batch 0 "t" .failed (some "earlier failure")).is_complete = true ∧
    (load_batch c2_store 0).map (fun b => b.status) = some BatchStatus.failed ∧
    c2_run.error = none ∧
    (load_batch c2_run.store 0).map (fun b => b.status) = some BatchStatus.completed := by
  decide

/-- C2 (amended): statuses written by a run move forward to a terminal
state — any `process_batch` invocation on an existing batch whose kind has
a registered processor leaves the batch COMPLETED or FAILED — but terminal
states are not sticky: `process_batch` performs no terminal-state check, so
invoking it again on a COMPLETED or FAILED batch re-enters PROCESSING and
re-derives a terminal status (this re-entry is what makes the idempotent
re-run of a half-finished batch work). -/
theorem c2_run_ends_terminal (reg : Registry) (st : Store) (now bid : Nat) (c : Bool)
    (B0 : BatchRec) (p : Processor)
    (hl : load_batch st bid = some B0)
    (hr : registry_get reg B0.batch_type = some p) :
    ∃ B, load_batch (process_batch reg st now bid c).store bid = some B ∧
      (B.status = BatchStatus.completed ∨ B.status = BatchStatus.failed) := by
  rcases process_batch_spine reg st now bid c with
    ⟨_, hcase⟩ | ⟨m, B0', hl', _, hload⟩ | ⟨_, B0', hl', hload⟩
  · rcases hcase with ⟨hnone, _⟩ | ⟨B1, hl1, hr1, _⟩
    · rw [hl] at hnone
      cases hnone
    · rw [hl] at hl1
      injection hl1 with he
      subst he
      rw [hr] at hr1
      cases hr1
  · exact ⟨_, hload, Or.inr rfl⟩
  · refine ⟨_, hload, ?_⟩
    show finalize_status _ _ = BatchStatus.completed ∨ finalize_status _ _ = BatchStatus.failed
    exact finalize_status_cases _ _

theorem c2_run_ends_terminal_witness :
    load_batch c2_store 0 = some (mk_batch 0 "t" .failed (some "earlier failure")) ∧
    registry_get c2_reg (mk_batch 0 "t" .failed (some "earlier failure")).batch_type =
      some trivial_processor ∧
    ∃ B, load_batch (process_batch c2_reg c2_store 9 0 true).store 0 = some B ∧
      (B.status = BatchStatus.completed ∨ B.status = BatchStatus.failed) :=
  ⟨by decide, by rfl,
    c2_run_ends_terminal c2_reg c2_store 9 0 true
      (mk_batch 0 "t" .failed (some "earlier failure")) trivial_processor
      (by decide) (by rfl)⟩

/-! ### C3 -/

/-- C3: an item already terminal (COMPLETED/FAILED/SKIPPED) when a
`process_batch` run begins is left with its row byte-for-byte unchanged in
the committed store, and no contract hook (skip predicate, validation,
`process_item`, error hook) is ever invoked on it — `calls` records the ids
of all items the loop went past the `is_complete` guard for.  In
particular a second `process_batch` invocation after a first call stopped
mid-way never re-executes items that were terminal before it. -/
theorem c3_terminal_items_untouched (reg : Registry) (st : Store) (now bid : Nat)
    (c : Bool) (x : ItemRec)
    (hnd : (st.items.map fun it => it.id).Nodup)
    (hx : x ∈ st.items) (hterm : x.is_complete = true) :
    find_item (process_batch reg st now bid c).store x.id = some x ∧
      x.id ∉ (process_batch reg st now bid c).calls :=
  process_batch_terminal_untouched reg st now bid c x hnd hx hterm

def c3w_reg : Registry := [("t", trivial_processor)]

def c3w_store : Store :=
  ⟨[mk_batch 0 "t" .processing none], [mk_item 1 0 0 .completed, mk_item 2 0 1 .pending]⟩

theorem c3_terminal_items_untouched_witness :
    ((c3w_store.items.map fun it => it.id).Nodup ∧
      mk_item 1 0 0 .completed ∈ c3w_store.items ∧
      (mk_item 1 0 0 .completed).is_complete = true) ∧
    (find_item (process_batch c3w_reg c3w_store 4 0 true).store
        (mk_item 1 0 0 .completed).id = some (mk_item 1 0 0 .completed) ∧
      (mk_item 1 0 0 .completed).id ∉ (process_batch c3w_reg c3w_store 4 0 true).calls) :=
  ⟨⟨by decide, by decide, by decide⟩,
    c3_terminal_items_untouched c3w_reg c3w_store 4 0 true (mk_item 1 0 0 .completed)
      (by decide) (by decide) (by decide)⟩

/-! ### C5 -/

/-- C5: when the candidate set is empty (no FAILED items under
`failed_items_only`, or no items at all otherwise), `reprocess_batch`
returns the original batch's own id, surfaces no error, creates no new
batch and leaves the store and the fresh-id supply untouched. -/
theorem c5_noop_reprocess (reg : Registry) (st : Store) (fresh now A : Nat)
    (failed_only c : Bool) (orig : BatchRec)
    (hload : load_batch st A = some orig)
    (hempty : (if failed_only then load_batch_items st A (some .failed)
               else load_batch_items st A none) = []) :
    reprocess_batch reg st fresh now A failed_only c = ⟨some A, st, fresh, none⟩ := by
  unfold reprocess_batch
  rw [hload]
  simp only [hempty, List.isEmpty_nil, if_true]

def c5w_store : Store :=
  ⟨[mk_batch 0 "t" .completed none], [mk_item 1 0 0 .completed]⟩

theorem c5_noop_reprocess_witness :
    load_batch c5w_store 0 = some (mk_batch 0 "t" .completed none) ∧
    (if true then load_batch_items c5w_store 0 (some .failed)
     else load_batch_items c5w_store 0 none) = [] ∧
    reprocess_batch [] c5w_store 10 3 0 true true = ⟨some 0, c5w_store, 10, none⟩ :=
  ⟨by decide, by decide,
    c5_noop_reprocess [] c5w_store 10 3 0 true true (mk_batch 0 "t" .completed none)
      (by decide) (by decide)⟩

/-! ### C4 -/

/-- C4: the batch created by `reprocess_batch` (before it is immediately
driven through `process_batch`) has `parent_batch_id` equal to the original
batch's id, the original's kind, sourceInfo and metadata, status PENDING,
and — among the items of the derived store — exactly one item per
candidate, in the candidates' original relative order, with `item_index`
reassigned densely from 0, `source_data` copied verbatim and every outcome
and error column unset. -/
theorem c4_reprocess_lineage (st : Store) (A fresh now : Nat) (failed_only : Bool)
    (orig : BatchRec) (si md : Json) (cands : List ItemRec)
    (_hload : load_batch st A = some orig)
    (hsi : orig.source_info = some si) (hmd : orig.metadata = some md)
    (_hcands : cands = if failed_only then load_batch_items st A (some .failed)
        else load_batch_items st A none)
    (hbfresh : ∀ b ∈ st.batches, b.id ≠ fresh)
    (hifresh : ∀ it ∈ st.items, it.batch_id ≠ fresh) :
    (∃ B, load_batch (derive_reprocess st orig A cands fresh now).2.1
        (derive_reprocess st orig A cands fresh now).1 = some B ∧
      B.parent_batch_id = some A ∧ B.batch_type = orig.batch_type ∧
      B.source_info = some si ∧ B.metadata = some md ∧ B.status = .pending) ∧
    ((derive_reprocess st orig A cands fresh now).2.1.items.filter
        fun it => it.batch_id == fresh).length = cands.length ∧
    (∀ i, (hi : i < cands.length) →
      (hi2 : i < ((derive_reprocess st orig A cands fresh now).2.1.items.filter
          fun it => it.batch_id == fresh).length) →
      ((derive_reprocess st orig A cands fresh now).2.1.items.filter
          fun it => it.batch_id == fresh).get ⟨i, hi2⟩ =
        { id := fresh + 1 + i, batch_id := fresh, item_index := i, status := .pending,
          source_data := (cands.get ⟨i, hi⟩).source_data, processed_data := none,
          target_table := none, target_id := none, error_message := none,
          processed_at := none, created_at := now }) := by
  have hfilter : ((derive_reprocess st orig A cands fresh now).2.1.items.filter
      fun it => it.batch_id == fresh) = cands.enum.map (reprocess_item_row fresh now) := by
    show ((st.items ++ cands.enum.map (reprocess_item_row fresh now)).filter
      fun it => it.batch_id == fresh) = cands.enum.map (reprocess_item_row fresh now)
    rw [List.filter_append]
    have h1 : (st.items.filter fun it => it.batch_id == fresh) = [] := by
      rw [List.filter_eq_nil_iff]
      intro a ha
      simpa using hifresh a ha
    have h2 : ((cands.enum.map (reprocess_item_row fresh now)).filter
        fun it => it.batch_id == fresh) = cands.enum.map (reprocess_item_row fresh now) := by
      rw [List.filter_eq_self]
      intro a ha
      rcases List.mem_map.mp ha with ⟨pr, _, rfl⟩
      simp [reprocess_item_row]
    rw [h1, h2, List.nil_append]
  refine ⟨?_, ?_, ?_⟩
  · refine ⟨reprocess_batch_row orig A fresh now, ?_, rfl, rfl, ?_, ?_, rfl⟩
    · show load_batch
        ⟨st.batches ++ [reprocess_batch_row orig A fresh now],
          st.items ++ cands.enum.map (reprocess_item_row fresh now)⟩ fresh = _
      unfold load_batch
      show ((st.batches ++ [reprocess_batch_row orig A fresh now]).find?
        fun b => b.id == fresh) = _
      rw [List.find?_append]
      have h0 : (st.batches.find? fun b => b.id == fresh) = none := by
        rw [List.find?_eq_none]
        intro b hb
        simpa using hbfresh b hb
      rw [h0, Option.none_or]
      exact List.find?_cons_of_pos _ (by simp [reprocess_batch_row])
    · show some (orig.source_info.getD Json.empty) = some si
      rw [hsi]
      rfl
    · show some (orig.metadata.getD Json.empty) = some md
      rw [hmd]
      rfl
  · rw [hfilter, List.length_map, List.enum_length]
  · intro i hi hi2
    have hi3 : i < (cands.enum.map (reprocess_item_row fresh now)).length := by
      rw [List.length_map, List.enum_length]
      exact hi
    rw [List.get_eq_getElem, List.getElem_of_eq hfilter hi2, List.getElem_map,
      List.getElem_enum, List.get_eq_getElem]
    rfl

def c4w_store : Store :=
  ⟨[mk_batch 0 "t" .completed none], [mk_item 1 0 0 .failed, mk_item 2 0 1 .completed]⟩

def c4w_cands : List ItemRec := load_batch_items c4w_store 0 (some .failed)

theorem c4_reprocess_lineage_witness :
    (load_batch c4w_store 0 = some (mk_batch 0 "t" .completed none) ∧
      (mk_batch 0 "t" .completed none).source_info = some Json.empty ∧
      (mk_batch 0 "t" .completed none).metadata = some Json.empty ∧
      c4w_cands.length = 1) ∧
    (∃ B, load_batch (derive_reprocess c4w_store (mk_batch 0 "t" .completed none) 0
          c4w_cands 10 7).2.1
        (derive_reprocess c4w_store (mk_batch 0 "t" .completed none) 0
          c4w_cands 10 7).1 = some B ∧
      B.parent_batch_id = some 0 ∧
      B.batch_type = (mk_batch 0 "t" .completed none).batch_type ∧
      B.source_info = some Json.empty ∧ B.metadata = some Json.empty ∧
      B.status = .pending) ∧
    ((derive_reprocess c4w_store (mk_batch 0 "t" .completed none) 0
        c4w_cands 10 7).2.1.items.filter
      fun it => it.batch_id == 10).length = c4w_cands.length := by
  have h := c4_reprocess_lineage c4w_store 0 10 7 true (mk_batch 0 "t" .completed none)
    Json.empty Json.empty c4w_cands (by decide) (by decide) (by decide) (by decide)
    (by decide) (by decide)
  exact ⟨⟨by decide, by decide, by decide, by decide⟩, h.1, h.2.1⟩

/-! ### C6 -/

def c6_reg : Registry := [("t", trivial_processor)]

/-- C6 counterexample: `create_batch` contains no emptiness check on
`items` — called with a registered kind and the empty item list it
succeeds, persisting a batch row with zero item rows, instead of failing
with a ValidationError (the empty-list rejection exists only in the
out-of-scope HTTP request model, `api_models.py`). -/
theorem c6_counterexample :
    create_batch c6_reg ⟨[], []⟩ 0 3 "t" [] none none =
      .ok (0,
        ⟨[{ id := 0, batch_type := "t", status := .pending,
            source_info := some Json.empty, metadata := some Json.empty,
            started_at := none, completed_at := none, created_at := 3,
            updated_at := 3, error_message := none, retry_count := 0,
            parent_batch_id := none }], []⟩, 1) := by
  rfl

/-- C6 (amended): `create_batch` fails with ProcessorNotFoundError (the
ContractNotFound of the spec) whenever the kind has no registered
processor, persisting nothing; but it performs no emptiness check: with an
empty items sequence and a registered kind it succeeds, persisting a
PENDING batch with zero items. -/
theorem c6_create_batch_amended (reg : Registry) (st : Store) (fresh now : Nat)
    (bt : String) (items : List Json) (si md : Option Json) :
    (registry_has reg bt = false →
      create_batch reg st fresh now bt items si md =
        .error (.processor_not_found
          ("No processor registered for batch type: " ++ bt))) ∧
    (registry_has reg bt = true →
      create_batch reg st fresh now bt [] si md =
        .ok (fresh,
          ⟨st.batches ++
            [{ id := fresh, batch_type := bt, status := .pending,
               source_info := some (si.getD Json.empty),
               metadata := some (md.getD Json.empty),
               started_at := none, completed_at := none, created_at := now,
               updated_at := now, error_message := none, retry_count := 0,
               parent_batch_id := none }],
            st.items⟩, fresh + 1)) := by
  constructor
  · intro h
    simp [create_batch, h]
  · intro h
    simp [create_batch, h]

theorem c6_create_batch_amended_witness :
    (registry_has [] "t" = false ∧
      create_batch [] ⟨[], []⟩ 0 3 "t" [⟨"x"⟩] none none =
        .error (.processor_not_found "No processor registered for batch type: t")) ∧
    (registry_has c6_reg "t" = true ∧
      create_batch c6_reg ⟨[], []⟩ 5 3 "t" [] none none =
        .ok (5,
          ⟨[{ id := 5, batch_type := "t", status := .pending,
              source_info := some Json.empty, metadata := some Json.empty,
              started_at := none, completed_at := none, created_at := 3,
              updated_at := 3, error_message := none, retry_count := 0,
              parent_batch_id := none }], []⟩, 6)) := by
  refine ⟨⟨by decide, ?_⟩, ⟨by decide, ?_⟩⟩
  · have h := (c6_create_batch_amended [] ⟨[], []⟩ 0 3 "t" [⟨"x"⟩] none none).1 (by decide)
    simpa using h
  · have h := (c6_create_batch_amended c6_reg ⟨[], []⟩ 5 3 "t" [] none none).2 (by decide)
    simpa using h

/-! ### C7 -/

/-- A processor whose `process_item` always raises and whose error hook
lets the run continue. -/
def c7_processor : Processor :=
  { validate_batch := true
    on_batch_start := none
    should_skip_item := fun _ => false
    validate_item := fun _ => true
    process_item := fun _ => .error "boom"
    on_item_error := fun _ _ => true
    on_batch_complete := fun _ => none }

def c7_reg : Registry := [("t", c7_processor)]

def c7_store : Store := ⟨[mk_batch 0 "t" .pending none], [mk_item 1 0 0 .pending]⟩

def c7_run : RunResult := process_batch c7_reg c7_store 6 0 true

/-- C7 counterexample: a run whose only item fails (zero successes, one
failure) ends FAILED through the terminal-status rule, but the terminal
`_update_batch_status(final_status, completed_at=...)` call leaves
`error_message` at its `None` default — the FAILED batch record carries no
errorMessage at all. -/
theorem c7_counterexample :
    c7_run.error = none ∧
    (load_batch c7_run.store 0).map (fun b => b.status) = some BatchStatus.failed ∧
    (load_batch c7_run.store 0).map (fun b => b.error_message) = some none := by
  decide

/-- C7 (amended): every item that is FAILED after a run carries an
errorMessage (provided FAILED items already present did); a batch that
reaches FAILED through an orchestration-level exception carries that
exception's message as its errorMessage; but a batch that reaches FAILED
through the terminal-status rule (zero successes, at least one item
failure, no exception surfaced) has its errorMessage overwritten to null. -/
theorem c7_error_message_amended (reg : Registry) (st : Store) (now bid : Nat) (c : Bool)
    (hinv : failed_items_ok st) :
    failed_items_ok (process_batch reg st now bid c).store ∧
    ((process_batch reg st now bid c).error = none →
      ∀ B, load_batch (process_batch reg st now bid c).store bid = some B →
        B.status = BatchStatus.failed → B.error_message = none) ∧
    (∀ m, ((process_batch reg st now bid c).error = some (.processing_error m) ∨
        (process_batch reg st now bid c).error = some (.hook_error m)) →
      ∃ B, load_batch (process_batch reg st now bid c).store bid = some B ∧
        B.status = BatchStatus.failed ∧ B.error_message = some m) := by
  refine ⟨process_batch_failed_ok reg st now bid c hinv, ?_, ?_⟩
  · intro h B hB _
    rcases process_batch_spine reg st now bid c with
      ⟨_, hcase⟩ | ⟨m, B0, _, herr, _⟩ | ⟨_, B0, _, hload⟩
    · rcases hcase with ⟨_, he⟩ | ⟨B1, _, _, he⟩ <;> rw [he] at h <;> cases h
    · rcases herr with he | he <;> rw [he] at h <;> cases h
    · rw [hload] at hB
      injection hB with hBe
      subst hBe
      rfl
  · intro m hm
    rcases process_batch_spine reg st now bid c with
      ⟨_, hcase⟩ | ⟨m', B0, _, herr, hload⟩ | ⟨herr, B0, _, hload⟩
    · rcases hcase with ⟨_, he⟩ | ⟨B1, _, _, he⟩ <;> rcases hm with hm' | hm' <;>
        rw [he] at hm' <;> injection hm' with hx <;> cases hx
    · rcases herr with he | he <;> rcases hm with hm' | hm'
      · rw [he] at hm'
        injection hm' with hx
        injection hx with hy
        subst hy
        exact ⟨_, hload, rfl, rfl⟩
      · rw [he] at hm'
        injection hm' with hx
        cases hx
      · rw [he] at hm'
        injection hm' with hx
        cases hx
      · rw [he] at hm'
        injection hm' with hx
        injection hx with hy
        subst hy
        exact ⟨_, hload, rfl, rfl⟩
    · rcases hm with hm' | hm' <;> rw [herr] at hm' <;> cases hm'

def c7w_store : Store := ⟨[], []⟩

theorem c7_error_message_amended_witness :
    failed_items_ok c7w_store ∧
    failed_items_ok (process_batch [] c7w_store 0 0 true).store :=
  ⟨(by intro it hit; cases hit),
    (c7_error_message_amended [] c7w_store 0 0 true (by intro it hit; cases hit)).1⟩

/-! ### C10 -/

/-- C10: `_update_batch_status` always overwrites `error_message` and
`completed_at` of the targeted batch with exactly the values passed (the
Python defaults being `None`, the PROCESSING write in `process_batch`
passes `none`/`none` and so clears both); consequently an exception-free
run's terminal update leaves `error_message = none` — clearing any
previously recorded message — and stamps `completed_at`. -/
theorem c10_status_update_overwrites (s : Store) (bid2 : Nat) (stat : BatchStatus)
    (em : Option String) (ca : Option Nat) (now2 : Nat)
    (reg : Registry) (st : Store) (now bid : Nat) (c : Bool) :
    (load_batch (update_batch_status s bid2 stat em ca now2) bid2 =
      (load_batch s bid2).map fun b =>
        { b with status := stat, error_message := em, completed_at := ca,
                 updated_at := now2 }) ∧
    ((process_batch reg st now bid c).error = none →
      ∀ B, load_batch (process_batch reg st now bid c).store bid = some B →
        B.error_message = none ∧ B.completed_at = some now) := by
  constructor
  · exact load_batch_update_batch_status s bid2 stat em ca now2
  · intro h B hB
    rcases process_batch_spine reg st now bid c with
      ⟨_, hcase⟩ | ⟨m, B0, _, herr, _⟩ | ⟨_, B0, _, hload⟩
    · rcases hcase with ⟨_, he⟩ | ⟨B1, _, _, he⟩ <;> rw [he] at h <;> cases h
    · rcases herr with he | he <;> rw [he] at h <;> cases h
    · rw [hload] at hB
      injection hB with hBe
      subst hBe
      exact ⟨rfl, rfl⟩

def c10w_store : Store := ⟨[mk_batch 0 "t" .failed (some "old message")], []⟩

def c10w_reg : Registry := [("t", trivial_processor)]

theorem c10_status_update_overwrites_witness :
    (load_batch (update_batch_status c10w_store 0 .processing none none 4) 0 =
      (load_batch c10w_store 0).map fun b =>
        { b with status := .processing, error_message := none, completed_at := none,
                 updated_at := 4 }) ∧
    ((process_batch c10w_reg c10w_store 9 0 true).error = none ∧
      ∀ B, load_batch (process_batch c10w_reg c10w_store 9 0 true).store 0 = some B →
        B.error_message = none ∧ B.completed_at = some 9) :=
  ⟨(c10_status_update_overwrites c10w_store 0 .processing none none 4
      c10w_reg c10w_store 9 0 true).1,
    by decide,
    (c10_status_update_overwrites c10w_store 0 .processing none none 4
      c10w_reg c10w_store 9 0 true).2 (by decide)⟩
